import Mathlib

/-!
Verification of the resume-screening application (src/app.py) against its
natural-language specification.

The embedding models the response-normalization path of `analyze_resume`
(which passes the raw model reply to Python `eval`), the per-resume batch
loop that builds `candidate_data` records, and the dashboard ranking step
`df.sort_values('score', ascending=False)`.

Python values that can arise from evaluating a model reply are modelled by
`PyValue`; `pyEvalStr` is an executable model of CPython `eval` restricted
to the expression fragment that JSON-like replies exercise: int literals,
unary minus, string literals in single or double quotes (unknown escape
sequences keep their backslash, as in Python), list and dict displays with
optional trailing commas, the identifiers True/False/None (any other
identifier is a NameError, hence failure), and integer addition.  Where the
model returns `none` the corresponding CPython evaluation raises; the model
is only ever claimed to succeed on inputs where CPython succeeds with the
same value.

`jsonParse` is a strict JSON parser (double-quoted strings only, the
literals true/false/null, integer numerals, no trailing commas) used to
state the spec side of the parsing claims.
-/

/-- Character code 39, a single quote. -/
def quoteS : Char := Char.ofNat 39

/-- Character code 34, a double quote. -/
def quoteD : Char := Char.ofNat 34

/-- Character code 123, an opening curly brace. -/
def braceL : Char := Char.ofNat 123

/-- Character code 125, a closing curly brace. -/
def braceR : Char := Char.ofNat 125

/-- Character code 92, a backslash. -/
def backslashC : Char := Char.ofNat 92

/-- Whitespace characters skipped by both parsers. -/
def isWsChar (c : Char) : Bool :=
  c == ' ' || c == '\n' || c == '\t' || c == '\r'

/-- Drop leading whitespace. -/
def skipWs (cs : List Char) : List Char :=
  cs.dropWhile isWsChar

/-- Value of a nonempty digit string. -/
def digitsToNat (ds : List Char) : Nat :=
  ds.foldl (fun n c => 10 * n + (c.toNat - 48)) 0

/-- Python values produced by evaluating a model reply. -/
inductive PyValue where
  | pyNone
  | pyBool (b : Bool)
  | pyInt (n : Int)
  | pyStr (s : List Char)
  | pyList (xs : List PyValue)
  | pyDict (kvs : List (List Char × PyValue))

/-- Python truthiness of a value (`if analysis` in app.py line 87). -/
def pyTruthy : PyValue → Bool
  | .pyNone => false
  | .pyBool b => b
  | .pyInt n => n != 0
  | .pyStr s => !s.isEmpty
  | .pyList xs => !xs.isEmpty
  | .pyDict kvs => !kvs.isEmpty

/-- `isinstance(analysis, dict)` (app.py line 87). -/
def PyValue.isDict : PyValue → Bool
  | .pyDict _ => true
  | _ => false

/-- Insert a key into a dict, overwriting an existing binding: Python dict
literals keep the last value for a repeated key. -/
def dictInsert (kvs : List (List Char × PyValue)) (k : List Char) (v : PyValue) :
    List (List Char × PyValue) :=
  match kvs with
  | [] => [(k, v)]
  | (k2, v2) :: rest =>
    if k2 = k then (k2, v) :: rest else (k2, v2) :: dictInsert rest k v

/-- Python `d.get(k, default)` (app.py lines 90 to 93). -/
def dictGet (kvs : List (List Char × PyValue)) (k : List Char) (d : PyValue) : PyValue :=
  match kvs with
  | [] => d
  | (k2, v) :: rest => if k2 = k then v else dictGet rest k d

/-- Decode one Python string-escape character; Python leaves an unknown
escape sequence intact, backslash included. -/
def pyEsc (e : Char) : List Char :=
  if e = 'n' then ['\n']
  else if e = 't' then ['\t']
  else if e = 'r' then ['\r']
  else if e = backslashC then [backslashC]
  else if e = quoteS then [quoteS]
  else if e = quoteD then [quoteD]
  else [backslashC, e]

/-- Parse the rest of a Python string literal after its opening quote `q`,
returning the decoded content and the remaining input. -/
def pyStrRest (q : Char) : List Char → Option (List Char × List Char)
  | [] => none
  | c :: cs =>
    if c = q then some ([], cs)
    else if c = backslashC then
      match cs with
      | [] => none
      | e :: cs2 =>
        match pyStrRest q cs2 with
        | some p => some (pyEsc e ++ p.1, p.2)
        | none => none
    else
      match pyStrRest q cs with
      | some p => some (c :: p.1, p.2)
      | none => none

mutual

/-- Parse one Python atom (literal, list or dict display, or identifier). -/
def pyAtom (fuel : Nat) (cs : List Char) : Option (PyValue × List Char) :=
  match fuel with
  | 0 => none
  | f + 1 =>
    match skipWs cs with
    | [] => none
    | c :: rest =>
      if c = quoteS ∨ c = quoteD then
        match pyStrRest c rest with
        | some p => some (.pyStr p.1, p.2)
        | none => none
      else if c = '-' then
        match pyAtom f rest with
        | some (.pyInt n, r) => some (.pyInt (-n), r)
        | _ => none
      else if c.isDigit then
        let p := (c :: rest).span Char.isDigit
        some (.pyInt (Int.ofNat (digitsToNat p.1)), p.2)
      else if c.isAlpha then
        let p := (c :: rest).span Char.isAlpha
        if p.1 = ("True".data) then some (.pyBool true, p.2)
        else if p.1 = ("False".data) then some (.pyBool false, p.2)
        else if p.1 = ("None".data) then some (.pyNone, p.2)
        else none
      else if c = '[' then
        let cs2 := skipWs rest
        match cs2 with
        | ']' :: r => some (.pyList [], r)
        | _ =>
          match pyElems f cs2 with
          | some p => some (.pyList p.1, p.2)
          | none => none
      else if c = braceL then
        let cs2 := skipWs rest
        if cs2.head? = some braceR then some (.pyDict [], cs2.tail)
        else
          match pyItems f cs2 with
          | some p =>
            some (.pyDict (p.1.foldl (fun acc kv => dictInsert acc kv.1 kv.2) []), p.2)
          | none => none
      else none

/-- Parse the elements of a nonempty Python list display, consuming the
closing bracket; a trailing comma is allowed. -/
def pyElems (fuel : Nat) (cs : List Char) : Option (List PyValue × List Char) :=
  match fuel with
  | 0 => none
  | f + 1 =>
    match pyExpr f cs with
    | none => none
    | some (v, cs1) =>
      match skipWs cs1 with
      | ',' :: cs2 =>
        let cs3 := skipWs cs2
        match cs3 with
        | ']' :: r => some ([v], r)
        | _ =>
          match pyElems f cs3 with
          | some p => some (v :: p.1, p.2)
          | none => none
      | ']' :: cs2 => some ([v], cs2)
      | _ => none

/-- Parse the items of a nonempty Python dict display, consuming the closing
brace; keys must evaluate to strings, a trailing comma is allowed. -/
def pyItems (fuel : Nat) (cs : List Char) : Option (List (List Char × PyValue) × List Char) :=
  match fuel with
  | 0 => none
  | f + 1 =>
    match pyExpr f cs with
    | none => none
    | some (k, cs1) =>
      match k with
      | .pyStr ks =>
        match skipWs cs1 with
        | ':' :: cs2 =>
          match pyExpr f cs2 with
          | none => none
          | some (v, cs3) =>
            match skipWs cs3 with
            | ',' :: cs4 =>
              let cs5 := skipWs cs4
              if cs5.head? = some braceR then some ([(ks, v)], cs5.tail)
              else
                match pyItems f cs5 with
                | some p => some ((ks, v) :: p.1, p.2)
                | none => none
            | c2 :: cs4 => if c2 = braceR then some ([(ks, v)], cs4) else none
            | [] => none
        | _ => none
      | _ => none

/-- Parse a Python expression: an atom followed by zero or more additions. -/
def pyExpr (fuel : Nat) (cs : List Char) : Option (PyValue × List Char) :=
  match fuel with
  | 0 => none
  | f + 1 =>
    match pyAtom f cs with
    | none => none
    | some (v, cs1) => pySum f v cs1

/-- Fold the remaining `+ atom` clauses onto an already-parsed value; only
integer addition is modelled. -/
def pySum (fuel : Nat) (v : PyValue) (cs : List Char) : Option (PyValue × List Char) :=
  match fuel with
  | 0 => none
  | f + 1 =>
    match skipWs cs with
    | '+' :: cs2 =>
      match pyAtom f cs2 with
      | some (.pyInt b, cs3) =>
        match v with
        | .pyInt a => pySum f (.pyInt (a + b)) cs3
        | _ => none
      | _ => none
    | _ => some (v, cs)

end

/-- Model of `eval(response.text)` (app.py line 45): evaluate the whole
reply as one Python expression; `none` models an exception. -/
def pyEvalStr (s : String) : Option PyValue :=
  let cs := s.data
  match pyExpr (4 * cs.length + 8) cs with
  | some (v, r) => if (skipWs r).isEmpty then some v else none
  | none => none

/-- JSON values, for the spec side of the parsing claims. -/
inductive JValue where
  | jNull
  | jBool (b : Bool)
  | jNum (n : Int)
  | jStr (s : List Char)
  | jArr (xs : List JValue)
  | jObj (kvs : List (List Char × JValue))

/-- Decode one JSON string-escape character; anything else (including the
\uXXXX form, which no input here uses) is rejected. -/
def jEsc (e : Char) : Option Char :=
  if e = quoteD then some quoteD
  else if e = backslashC then some backslashC
  else if e = '/' then some '/'
  else if e = 'n' then some '\n'
  else if e = 't' then some '\t'
  else if e = 'r' then some '\r'
  else if e = 'b' then some (Char.ofNat 8)
  else if e = 'f' then some (Char.ofNat 12)
  else none

/-- Parse the rest of a JSON string after its opening double quote. -/
def jStrRest : List Char → Option (List Char × List Char)
  | [] => none
  | c :: cs =>
    if c = quoteD then some ([], cs)
    else if c = backslashC then
      match cs with
      | [] => none
      | e :: cs2 =>
        match jEsc e with
        | none => none
        | some ch =>
          match jStrRest cs2 with
          | some p => some (ch :: p.1, p.2)
          | none => none
    else if c = '\n' then none
    else
      match jStrRest cs with
      | some p => some (c :: p.1, p.2)
      | none => none

mutual

/-- Parse one JSON value. -/
def jVal (fuel : Nat) (cs : List Char) : Option (JValue × List Char) :=
  match fuel with
  | 0 => none
  | f + 1 =>
    match skipWs cs with
    | [] => none
    | c :: rest =>
      if c = quoteD then
        match jStrRest rest with
        | some p => some (.jStr p.1, p.2)
        | none => none
      else if c = '-' then
        match rest with
        | d :: _ =>
          if d.isDigit then
            let p := rest.span Char.isDigit
            some (.jNum (-(Int.ofNat (digitsToNat p.1))), p.2)
          else none
        | [] => none
      else if c.isDigit then
        let p := (c :: rest).span Char.isDigit
        some (.jNum (Int.ofNat (digitsToNat p.1)), p.2)
      else if c.isAlpha then
        let p := (c :: rest).span Char.isAlpha
        if p.1 = ("true".data) then some (.jBool true, p.2)
        else if p.1 = ("false".data) then some (.jBool false, p.2)
        else if p.1 = ("null".data) then some (.jNull, p.2)
        else none
      else if c = '[' then
        let cs2 := skipWs rest
        match cs2 with
        | ']' :: r => some (.jArr [], r)
        | _ =>
          match jElems (f) cs2 with
          | some p => some (.jArr p.1, p.2)
          | none => none
      else if c = braceL then
        let cs2 := skipWs rest
        if cs2.head? = some braceR then some (.jObj [], cs2.tail)
        else
          match jMembers f cs2 with
          | some p => some (.jObj p.1, p.2)
          | none => none
      else none

/-- Parse the elements of a nonempty JSON array, consuming the closing
bracket; no trailing comma. -/
def jElems (fuel : Nat) (cs : List Char) : Option (List JValue × List Char) :=
  match fuel with
  | 0 => none
  | f + 1 =>
    match jVal f cs with
    | none => none
    | some (v, cs1) =>
      match skipWs cs1 with
      | ',' :: cs2 =>
        match jElems f cs2 with
        | some p => some (v :: p.1, p.2)
        | none => none
      | ']' :: cs2 => some ([v], cs2)
      | _ => none

/-- Parse the members of a nonempty JSON object, consuming the closing
brace; keys are double-quoted strings, no trailing comma. -/
def jMembers (fuel : Nat) (cs : List Char) : Option (List (List Char × JValue) × List Char) :=
  match fuel with
  | 0 => none
  | f + 1 =>
    match skipWs cs with
    | c :: rest =>
      if c = quoteD then
        match jStrRest rest with
        | none => none
        | some (ks, cs1) =>
          match skipWs cs1 with
          | ':' :: cs2 =>
            match jVal f cs2 with
            | none => none
            | some (v, cs3) =>
              match skipWs cs3 with
              | ',' :: cs4 =>
                match jMembers f cs4 with
                | some p => some ((ks, v) :: p.1, p.2)
                | none => none
              | c2 :: cs4 => if c2 = braceR then some ([(ks, v)], cs4) else none
              | [] => none
          | _ => none
      else none
    | [] => none

end

/-- Strict JSON parsing of a whole string; the safe structured-data parsing
the spec requires of the normalizer. -/
def jsonParse (s : String) : Option JValue :=
  let cs := s.data
  match jVal (4 * cs.length + 8) cs with
  | some (v, r) => if (skipWs r).isEmpty then some v else none
  | none => none

/-- Drop leading and trailing whitespace. -/
def trimChars (cs : List Char) : List Char :=
  ((cs.dropWhile isWsChar).reverse.dropWhile isWsChar).reverse

/-- Modelled from the spec: the preprocessing step of the response
normalizer, absent from src/app.py, which strips a leading Markdown code
fence (optionally tagged with a language hint) and a trailing fence, and
trims surrounding whitespace. -/
def stripFences (s : String) : String :=
  let t := trimChars s.data
  let t :=
    if t.take 3 = ("```".data) then
      let r := t.drop 3
      let r := r.dropWhile (fun c => c != '\n')
      r.drop 1
    else t
  let t :=
    if t.reverse.take 3 = ("```".data) then (t.reverse.drop 3).reverse else t
  String.mk (trimChars t)

/-- The outcome of the remote `model.generate_content` call for one resume:
either a raw reply text or an exception (network, auth, rate limit). -/
inductive ModelOutcome where
  | reply (text : String)
  | serviceError (msg : String)

/-- One uploaded resume as the batch loop sees it: its filename, its
extracted text, and the outcome of the remote call made for it. -/
structure ResumeFile where
  name : String
  text : String
  outcome : ModelOutcome

/-- The record built for one candidate (app.py lines 88 to 95).  The four
analysis fields hold whatever Python values the reply supplied; the code
applies no type validation to them. -/
structure Candidate where
  name : String
  score : PyValue
  matchesVal : PyValue
  gaps : PyValue
  summary : PyValue
  resume : String

/-- `resume.name.split('.')[0]` (app.py line 89): everything before the
first dot of the filename. -/
def splitBaseName (filename : String) : String :=
  String.mk (filename.data.takeWhile (fun c => c != '.'))

/-- `text[:500] + "..."` (app.py line 94). -/
def resumeExcerpt (tx : String) : String :=
  String.mk (tx.data.take 500 ++ ("...".data))

/-- Lines 87 to 95 of app.py: `if analysis and isinstance(analysis, dict)`
build `candidate_data` from `analysis.get(...)` with per-key defaults,
otherwise produce no record.  A missing reply (`None`), a non-dict value,
and an empty dict (falsy in Python) all yield no record. -/
def candidate_data (fn tx : String) (analysis : Option PyValue) : Option Candidate :=
  match analysis with
  | some (.pyDict kvs) =>
    if kvs.isEmpty then none
    else
      some
        { name := splitBaseName fn
          score := dictGet kvs ("score".data) (.pyInt 0)
          matchesVal := dictGet kvs ("matches".data) (.pyList [])
          gaps := dictGet kvs ("gaps".data) (.pyList [])
          summary := dictGet kvs ("summary".data) (.pyStr [])
          resume := resumeExcerpt tx }
  | _ => none

/-- `analyze_resume` (app.py lines 27 to 48): evaluate the reply with
`eval`; any exception (a failed remote call or a failed evaluation) is
caught, reported via `st.error`, and turns into `None`.  Returns the
analysis value and the error notices emitted. -/
def analyze_resume : ModelOutcome → Option PyValue × List String
  | .serviceError msg => (none, ["Analysis failed: " ++ msg])
  | .reply t =>
    match pyEvalStr t with
    | some v => (some v, [])
    | none => (none, ["Analysis failed: invalid syntax"])

/-- The records, error notices and warning notices produced by the batch
loop for one resume (app.py lines 83 to 100). -/
structure BatchResult where
  candidates : List Candidate
  errors : List String
  warnings : List String

/-- One iteration of the batch loop (app.py lines 83 to 100): analyze the
resume, then either append a record or emit an "Invalid response" warning. -/
def processResume (r : ResumeFile) : BatchResult :=
  let a := analyze_resume r.outcome
  match candidate_data r.name r.text a.1 with
  | some c => ⟨[c], a.2, []⟩
  | none => ⟨[], a.2, ["Invalid response for " ++ r.name]⟩

/-- The whole batch loop: resumes are processed sequentially and the
records and notices accumulate in order. -/
def processBatch (rs : List ResumeFile) : BatchResult :=
  match rs with
  | [] => ⟨[], [], []⟩
  | r :: rest =>
    let h := processResume r
    let t := processBatch rest
    ⟨h.candidates ++ t.candidates, h.errors ++ t.errors, h.warnings ++ t.warnings⟩

/-- The integer score a record carries; ranking inputs always hold
`pyInt` scores. -/
def scoreKey (c : Candidate) : Int :=
  match c.score with
  | .pyInt n => n
  | _ => 0

/-- Ascending comparison on scores, the order underlying the dashboard
sort. -/
def scoreLe (a b : Candidate) : Prop := scoreKey a ≤ scoreKey b

instance : DecidableRel scoreLe :=
  fun a b => inferInstanceAs (Decidable (scoreKey a ≤ scoreKey b))

instance : IsTotal Candidate scoreLe :=
  ⟨fun a b => Int.le_total (scoreKey a) (scoreKey b)⟩

instance : IsTrans Candidate scoreLe :=
  ⟨fun _ _ _ h1 h2 => le_trans h1 h2⟩

/-- `df.sort_values('score', ascending=False)` (app.py line 109): pandas
computes an ascending argsort of the column and reverses it for a
descending sort (`nargsort`); numpy's sort is insertion sort, hence stable,
on the small arrays at issue.  The net effect is the reverse of a stable
ascending sort, so tied scores appear in reverse insertion order. -/
def rankCandidates (l : List Candidate) : List Candidate :=
  (List.insertionSort scoreLe l).reverse

/-! Concrete reply strings used by the claims. -/

/-- A reply that is a Python dict display, not JSON: single-quoted keys and
an arithmetic expression as the score. -/
def pyReply : String :=
  "\x7b\x27score\x27: 40+2, \x27matches\x27: [], \x27gaps\x27: [], \x27summary\x27: []\x7d"

/-- A valid JSON reply whose score is 150, above the claimed range. -/
def highReply : String :=
  "\x7b\"score\": 150, \"matches\": [], \"gaps\": [], \"summary\": []\x7d"

/-- A valid JSON reply whose score is -5, below the claimed range. -/
def lowReply : String :=
  "\x7b\"score\": -5, \"matches\": [], \"gaps\": [], \"summary\": []\x7d"

/-- A reply wrapped in Markdown code fences whose fenced content is valid
JSON of the expected shape. -/
def fencedReply : String :=
  "```json\n\x7b\"score\": 88, \"matches\": [\"java\"], \"gaps\": [\"sql\"], \"summary\": [\"ok\"]\x7d\n```"

/-- A valid JSON reply of the expected shape whose summary list contains
the JSON literal `true`. -/
def trueReply : String :=
  "\x7b\"score\": 50, \"matches\": [\"a\"], \"gaps\": [\"b\"], \"summary\": [true]\x7d"

/-- A successfully evaluated reply whose matches field has the wrong type
(an int) and whose gaps and summary fields are absent. -/
def wrongTypeReply : String :=
  "\x7b\"score\": 5, \"matches\": 7\x7d"

/-! Helper lemmas. -/

/-- A lookup with a default returns the default when the key is absent. -/
theorem dictGet_not_mem (kvs : List (List Char × PyValue)) (k : List Char) (d : PyValue)
    (h : k ∉ kvs.map Prod.fst) : dictGet kvs k d = d := by
  induction kvs with
  | nil => rfl
  | cons kv rest ih =>
    cases kv with
    | mk k2 v =>
      simp only [List.map_cons, List.mem_cons, not_or] at h
      simp only [dictGet]
      rw [if_neg (fun he => h.1 he.symm)]
      exact ih h.2

/-- The batch loop distributes over list append. -/
theorem processBatch_append (l1 l2 : List ResumeFile) :
    processBatch (l1 ++ l2) =
      ⟨(processBatch l1).candidates ++ (processBatch l2).candidates,
       (processBatch l1).errors ++ (processBatch l2).errors,
       (processBatch l1).warnings ++ (processBatch l2).warnings⟩ := by
  induction l1 with
  | nil => rfl
  | cons r rest ih =>
    simp [processBatch, ih, List.append_assoc]

/-- Everything before the first dot of a dot-free prefix is returned
unchanged by `takeWhile`. -/
theorem takeWhile_stops_at_dot (ext : List Char) :
    ∀ base : List Char, ('.') ∉ base →
      (base ++ ('.') :: ext).takeWhile (fun c => c != '.') = base := by
  intro base
  induction base with
  | nil =>
    intro _
    simp [List.takeWhile_cons]
  | cons c rest ih =>
    intro h
    simp only [List.mem_cons, not_or] at h
    have hc : (c != '.') = true := by
      simp only [bne_iff_ne, ne_eq]
      exact fun he => h.1 he.symm
    simp [List.takeWhile_cons, hc, ih h.2]

/-! The claims. -/

/-- C1: the claim says the normalizer only ever parses the reply as strict
JSON and fails with MalformedReply otherwise; the code instead hands the
raw reply to `eval`.  Witnessed here: a reply that is not JSON at all (the
strict parser rejects it) but is a Python dict display containing the
arithmetic expression `40+2` is evaluated by the code, which computes the
sum and builds a CandidateRecord with score 42 from it. -/
theorem normalizer_evaluates_reply_as_python_code :
    jsonParse pyReply = none ∧
    (processResume ⟨"cv.pdf", "TXT", .reply pyReply⟩).candidates =
      [⟨"cv", .pyInt 42, .pyList [], .pyList [], .pyList [], "TXT..."⟩] :=
  ⟨rfl, rfl⟩

/-- C2: the claim says an out-of-range score is clamped into [0,100]; the
code stores `analysis.get('score', 0)` unchanged, so a reply with score
150 yields a record with score 150 and a reply with score -5 yields a
record with score -5. -/
theorem score_not_clamped_out_of_range :
    (processResume ⟨"a.pdf", "T", .reply highReply⟩).candidates =
      [⟨"a", .pyInt 150, .pyList [], .pyList [], .pyList [], "T..."⟩] ∧
    (processResume ⟨"b.pdf", "T", .reply lowReply⟩).candidates =
      [⟨"b", .pyInt (-5), .pyList [], .pyList [], .pyList [], "T..."⟩] ∧
    ¬ ((150 : Int) ≤ 100) ∧ ¬ ((0 : Int) ≤ -5) :=
  ⟨rfl, rfl, by decide, by decide⟩

/-- C3: the claim says a code-fenced reply is unwrapped and succeeds iff
the fenced content is valid JSON of the expected shape; the code strips
nothing, so `eval` chokes on the fence and the resume yields no record
even though the fenced content is valid JSON of exactly the expected
shape. -/
theorem fenced_reply_rejected_despite_valid_json :
    jsonParse (stripFences fencedReply) =
      some (.jObj [(("score".data), .jNum 88),
        (("matches".data), .jArr [.jStr ("java".data)]),
        (("gaps".data), .jArr [.jStr ("sql".data)]),
        (("summary".data), .jArr [.jStr ("ok".data)])]) ∧
    pyEvalStr fencedReply = none ∧
    processResume ⟨"cv.pdf", "T", .reply fencedReply⟩ =
      ⟨[], ["Analysis failed: invalid syntax"], ["Invalid response for cv.pdf"]⟩ :=
  ⟨rfl, rfl, rfl⟩

/-- C7: the claim says every valid JSON reply of the expected shape with an
in-range score is normalized with all fields preserved; but valid JSON may
contain the literal `true`, which `eval` treats as an undefined Python
name, so this reply (valid JSON, score 50 in range) produces no record at
all. -/
theorem valid_json_with_true_fails_normalization :
    jsonParse trueReply =
      some (.jObj [(("score".data), .jNum 50),
        (("matches".data), .jArr [.jStr ("a".data)]),
        (("gaps".data), .jArr [.jStr ("b".data)]),
        (("summary".data), .jArr [.jBool true])]) ∧
    pyEvalStr trueReply = none ∧
    processResume ⟨"cv.pdf", "T", .reply trueReply⟩ =
      ⟨[], ["Analysis failed: invalid syntax"], ["Invalid response for cv.pdf"]⟩ :=
  ⟨rfl, rfl, rfl⟩

/-- C6: a successfully evaluated reply whose top-level value is not a dict
never yields a CandidateRecord; the resume gets an "Invalid response"
notice instead. -/
theorem non_dict_reply_produces_no_record
    (r : ResumeFile) (t : String) (v : PyValue)
    (ho : r.outcome = .reply t) (hp : pyEvalStr t = some v) (hd : v.isDict = false) :
    processResume r = ⟨[], [], ["Invalid response for " ++ r.name]⟩ := by
  have ha : analyze_resume r.outcome = (some v, []) := by
    rw [ho]
    simp [analyze_resume, hp]
  have hc : candidate_data r.name r.text (some v) = none := by
    cases v with
    | pyDict kvs => simp [PyValue.isDict] at hd
    | pyNone => rfl
    | pyBool b => rfl
    | pyInt n => rfl
    | pyStr s => rfl
    | pyList xs => rfl
  simp [processResume, ha, hc]

/-- Witness for C6 at the concrete non-object reply `[1, 2]`. -/
theorem non_dict_reply_produces_no_record_witness :
    pyEvalStr "[1, 2]" = some (.pyList [.pyInt 1, .pyInt 2]) ∧
    processResume ⟨"x.pdf", "T", .reply "[1, 2]"⟩ =
      ⟨[], [], ["Invalid response for x.pdf"]⟩ :=
  ⟨rfl, non_dict_reply_produces_no_record ⟨"x.pdf", "T", .reply "[1, 2]"⟩ "[1, 2]"
    (.pyList [.pyInt 1, .pyInt 2]) rfl rfl rfl⟩

/-- C5: a resume whose analysis fails (remote-call exception or
unparseable reply) contributes exactly one error notice and one warning
notice; the records of the resumes before and after it are exactly those
the loop would produce without it, so one failure never aborts the
batch. -/
theorem batch_isolates_failed_resume
    (pre post : List ResumeFile) (bad : ResumeFile) (errs : List String)
    (h : analyze_resume bad.outcome = (none, errs)) :
    processBatch (pre ++ bad :: post) =
      ⟨(processBatch pre).candidates ++ (processBatch post).candidates,
       (processBatch pre).errors ++ errs ++ (processBatch post).errors,
       (processBatch pre).warnings ++
         (("Invalid response for " ++ bad.name) :: (processBatch post).warnings)⟩ := by
  have hbad : processResume bad = ⟨[], errs, ["Invalid response for " ++ bad.name]⟩ := by
    simp [processResume, h, candidate_data]
  rw [processBatch_append]
  have hmid : processBatch (bad :: post) =
      ⟨(processBatch post).candidates, errs ++ (processBatch post).errors,
       ("Invalid response for " ++ bad.name) :: (processBatch post).warnings⟩ := by
    simp [processBatch, hbad]
  rw [hmid]
  simp [List.append_assoc]

/-- The three resumes of the end-to-end scenario for C5. -/
def wr1 : ResumeFile := ⟨"a.pdf", "A", .reply "\x7b\"score\": 90\x7d"⟩

/-- The failing middle resume of the C5 scenario. -/
def wr2 : ResumeFile := ⟨"b.pdf", "B", .serviceError "quota"⟩

/-- The third resume of the C5 scenario. -/
def wr3 : ResumeFile := ⟨"c.pdf", "C", .reply "\x7b\"score\": 10\x7d"⟩

/-- Witness for C5: three resumes, the middle one hits a ServiceError;
exactly two records result, with one error notice and one warning. -/
theorem batch_isolates_failed_resume_witness :
    processBatch [wr1, wr2, wr3] =
      ⟨[⟨"a", .pyInt 90, .pyList [], .pyList [], .pyStr [], "A..."⟩,
        ⟨"c", .pyInt 10, .pyList [], .pyList [], .pyStr [], "C..."⟩],
       ["Analysis failed: quota"], ["Invalid response for b.pdf"]⟩ :=
  (batch_isolates_failed_resume [wr1] [wr3] wr2 ["Analysis failed: quota"] rfl).trans rfl

/-- C8 counterexample: the claim says a wrong-typed field is replaced by
its default; the code's `analysis.get` applies no type check, so a reply
whose matches field is the int 7 yields a record whose matches field is
the int 7, not an empty sequence, and whose absent summary defaults to the
empty string, not an empty sequence. -/
theorem wrong_typed_field_passes_through :
    (processResume ⟨"cv.pdf", "T", .reply wrongTypeReply⟩).candidates =
      [⟨"cv", .pyInt 5, .pyInt 7, .pyList [], .pyStr [], "T..."⟩] ∧
    PyValue.pyInt 7 ≠ PyValue.pyList [] ∧ PyValue.pyStr [] ≠ PyValue.pyList [] :=
  ⟨rfl, fun hc => PyValue.noConfusion hc, fun hc => PyValue.noConfusion hc⟩

/-- C8 as amended: in a successfully parsed nonempty dict reply, fields
default only when ABSENT (score to 0, matches and gaps to empty lists,
summary to the empty string); any value present under a key, of whatever
type, is passed through unchanged. -/
theorem defaults_apply_only_to_absent_fields :
    (∀ (fn tx : String) (kvs : List (List Char × PyValue)),
        kvs ≠ [] →
        ("score".data) ∉ kvs.map Prod.fst →
        ("matches".data) ∉ kvs.map Prod.fst →
        ("gaps".data) ∉ kvs.map Prod.fst →
        ("summary".data) ∉ kvs.map Prod.fst →
        candidate_data fn tx (some (.pyDict kvs)) =
          some ⟨splitBaseName fn, .pyInt 0, .pyList [], .pyList [], .pyStr [],
            resumeExcerpt tx⟩) ∧
    (∀ (fn tx : String) (v w x y : PyValue),
        candidate_data fn tx (some (.pyDict
            [(("score".data), v), (("matches".data), w),
             (("gaps".data), x), (("summary".data), y)])) =
          some ⟨splitBaseName fn, v, w, x, y, resumeExcerpt tx⟩) := by
  constructor
  · intro fn tx kvs hne h1 h2 h3 h4
    have hk : kvs.isEmpty = false := by
      cases kvs with
      | nil => exact absurd rfl hne
      | cons a l => rfl
    simp [candidate_data, hk, dictGet_not_mem _ _ _ h1, dictGet_not_mem _ _ _ h2,
      dictGet_not_mem _ _ _ h3, dictGet_not_mem _ _ _ h4]
  · intro fn tx v w x y
    rfl

/-- Witness for C8 as amended: a nonempty dict with none of the four keys
produces the fully defaulted record. -/
theorem defaults_apply_only_to_absent_fields_witness :
    candidate_data "cv.pdf" "T" (some (.pyDict [(("other".data), .pyInt 1)])) =
      some ⟨splitBaseName "cv.pdf", .pyInt 0, .pyList [], .pyList [], .pyStr [],
        resumeExcerpt "T"⟩ :=
  defaults_apply_only_to_absent_fields.1 "cv.pdf" "T" [(("other".data), .pyInt 1)]
    (List.cons_ne_nil _ _) (by decide) (by decide) (by decide) (by decide)

set_option maxRecDepth 10000 in
/-- C9 counterexample: for a 500-character resume text the stored excerpt
is the text plus "...", 503 characters, exceeding the claimed bound of
500. -/
theorem excerpt_length_exceeds_500 :
    (resumeExcerpt (String.mk (List.replicate 500 'a'))).length = 503 ∧
    ¬ (resumeExcerpt (String.mk (List.replicate 500 'a'))).length ≤ 500 := by
  have h : (resumeExcerpt (String.mk (List.replicate 500 'a'))).length = 503 := by
    show ((List.replicate 500 'a').take 500 ++ ("...".data)).length = 503
    rw [List.length_append, List.length_take, List.length_replicate]
    rfl
  exact ⟨h, by rw [h]; omega⟩

/-- C9 as amended: the excerpt is the first 500 characters of the source
text with a three-character ellipsis appended, so its length is
min(500, len) + 3, hence at most 503 (and more than 500 whenever the text
has at least 498 characters). -/
theorem excerpt_length_formula (tx : String) :
    (resumeExcerpt tx).length = min 500 tx.length + 3 ∧
    (resumeExcerpt tx).length ≤ 503 := by
  have h1 : (resumeExcerpt tx).length = (tx.data.take 500).length + 3 := by
    show (tx.data.take 500 ++ ("...".data)).length = (tx.data.take 500).length + 3
    rw [List.length_append]
    rfl
  have h2 : (tx.data.take 500).length = min 500 tx.data.length :=
    List.length_take 500 tx.data
  constructor
  · rw [h1, h2]
    rfl
  · rw [h1, h2]
    have := Nat.min_le_left 500 tx.data.length
    omega

/-- C10: the candidate name is the uploaded filename cut at its first dot,
so for a filename whose base name contains no dot the name is exactly the
base name with the extension stripped. -/
theorem candidate_name_strips_extension (base ext : List Char) (h : ('.') ∉ base) :
    splitBaseName (String.mk (base ++ ('.') :: ext)) = String.mk base := by
  unfold splitBaseName
  exact congrArg String.mk (takeWhile_stops_at_dot ext base h)

/-- Witness for C10 at the filename "john.pdf". -/
theorem candidate_name_strips_extension_witness :
    ('.') ∉ ("john".data) ∧
    splitBaseName (String.mk (("john".data) ++ ('.') :: ("pdf".data))) =
      String.mk ("john".data) :=
  ⟨by decide, candidate_name_strips_extension ("john".data) ("pdf".data) (by decide)⟩

/-- The four records of the ranking example: scores 40, 90, 90, 10 in
upload order A, B, C, D. -/
def exA : Candidate := ⟨"A", .pyInt 40, .pyList [], .pyList [], .pyStr [], ""⟩

/-- Second record of the ranking example, score 90. -/
def exB : Candidate := ⟨"B", .pyInt 90, .pyList [], .pyList [], .pyStr [], ""⟩

/-- Third record of the ranking example, score 90, tied with exB. -/
def exC : Candidate := ⟨"C", .pyInt 90, .pyList [], .pyList [], .pyStr [], ""⟩

/-- Fourth record of the ranking example, score 10. -/
def exD : Candidate := ⟨"D", .pyInt 10, .pyList [], .pyList [], .pyStr [], ""⟩

/-- C4 counterexample: on scores [40, 90, 90, 10] uploaded as A, B, C, D
the dashboard sort yields C, B, A, D, not the claimed stable order
B, C, A, D: the descending sort reverses an ascending one, so the tied
records B and C come out in reverse insertion order. -/
theorem ranking_tie_order_counterexample :
    rankCandidates [exA, exB, exC, exD] = [exC, exB, exA, exD] ∧
    rankCandidates [exA, exB, exC, exD] ≠ [exB, exC, exA, exD] := by
  constructor
  · rfl
  · intro hcon
    have h2 : ([exC, exB, exA, exD] : List Candidate) = [exB, exC, exA, exD] := hcon
    have h3 : exC.name = exB.name := by
      injection h2 with h h'
      exact congrArg Candidate.name h
    exact absurd h3 (by decide)

/-- C4 as amended: ranking orders the records by score descending, but
ties are broken in reverse insertion order, as on the example; the output
is always a permutation of the input that is pairwise nonincreasing in
score. -/
theorem ranking_desc_with_reversed_ties :
    rankCandidates [exA, exB, exC, exD] = [exC, exB, exA, exD] ∧
    ∀ l : List Candidate,
      (rankCandidates l).Pairwise (fun a b => scoreKey b ≤ scoreKey a) ∧
      (rankCandidates l).Perm l := by
  refine ⟨rfl, fun l => ⟨?_, ?_⟩⟩
  · have hs : List.Sorted scoreLe (List.insertionSort scoreLe l) :=
      List.sorted_insertionSort scoreLe l
    unfold rankCandidates
    rw [List.pairwise_reverse]
    exact hs
  · unfold rankCandidates
    exact (List.reverse_perm _).trans (List.perm_insertionSort _ _)
